import Mathlib

/-!
Verification development for the MIDIRouter repository (Go).

The Go sources are shallowly embedded:
* bytes and machine integers are `Nat` with explicit `% 2^w` where the Go code
  can wrap (uint8/uint16/uint32 conversions);
* `time.Time` and `time.Duration` values are `Int` (nanoseconds);
  `time.Since t` at instant `now` is `now - t`;
* Go `float64` arithmetic in the linear transform is modelled as exact
  rational arithmetic (`ℚ`); the Go conversion `uint16(f)` truncates toward
  zero, which for nonnegative `f` is `Int.floor`, reduced `% 2^16`
  (theorems about the transform stay in the range where the IEEE and the
  exact-rational computation agree);
* the calls into the filter, generator and transport interfaces are
  abstracted as function-valued fields; `rand.Intn n` is an oracle argument
  reduced `% n`;
* fallible construction (`config.LoadConfig`) returns `Except String`.
-/

namespace MIDIRouter

/-- coremidi.Packet: raw data bytes plus a timestamp (router.go, part_002). -/
structure Packet where
  data : List Nat
  timeStamp : Nat
deriving DecidableEq

/-- RuleMatchResult (part_002 lines 307-313). -/
inductive RuleMatchResult where
  | NoMatch
  | MatchInject
  | MatchNoInject
deriving DecidableEq

/-- FilterMatchResult of the filterinterface package (not under src); the
three outcomes are named in the spec (section 4.2): Match, MatchNoValue,
NoMatch. -/
inductive FilterMatchResult where
  | NoMatch
  | MatchNoValue
  | Match
deriving DecidableEq

/-- TransformMode (part_002 lines 315-323). -/
inductive TransformMode where
  | TransformModeNone
  | TransformModeLinear
  | TransformModeLinearDrop
  | TransformModeNoise
  | TransformModePreventRunStatus
deriving DecidableEq

/-- Modelled from the spec: the filter package is not under src/. The
channel-voice message type codes are forced by the derivation
`FilterMsgType((packet.Data[0] & 0xF0) >> 4)` in Rule.Match: they are the
status high nibbles (spec section 3). The values of SysEx, Any and Unknown
are not observable in the embedded functions beyond being distinct. -/
def FilterMsgTypeNoteOff : Nat := 8

/-- Modelled from the spec: status high nibble of Note On. -/
def FilterMsgTypeNoteOn : Nat := 9

/-- Modelled from the spec: status high nibble of Aftertouch. -/
def FilterMsgTypeAftertouch : Nat := 10

/-- Modelled from the spec: status high nibble of Control Change. -/
def FilterMsgTypeControlChange : Nat := 11

/-- Modelled from the spec: status high nibble of Program Change. -/
def FilterMsgTypeProgramChange : Nat := 12

/-- Modelled from the spec: status high nibble of Channel Pressure. -/
def FilterMsgTypeChannelPressure : Nat := 13

/-- Modelled from the spec: status high nibble of Pitch Wheel. -/
def FilterMsgTypePitchWheel : Nat := 14

/-- Modelled from the spec: SysEx message type code (full status byte 0xF0,
high nibble 15). -/
def FilterMsgTypeSysEx : Nat := 15

/-- Modelled from the spec: wildcard message type, filter-only. -/
def FilterMsgTypeAny : Nat := 16

/-- Modelled from the spec: unknown message type. -/
def FilterMsgTypeUnknown : Nat := 17

/-- Modelled from the spec: channels are derived from the low nibble of the
status byte (0-15 for channels 1-16); Any is a distinct wildcard. -/
def FilterChannelAny : Nat := 16

/-- NoiseSettings (part_002 lines 326-333): all fields unsigned machine
integers (uint8/uint16), embedded as Nat. -/
structure NoiseSettings where
  MsgType : Nat
  Channel : Nat
  MinValue : Nat
  MaxValue : Nat
  DelayMsMin : Nat
  DelayMsMax : Nat
deriving DecidableEq

/-- The all-zero NoiseSettings, the Go zero value. -/
def noNoise : NoiseSettings := ⟨0, 0, 0, 0, 0, 0⟩

/-- Transform (part_002 lines 335-342): mode plus uint32 bounds plus noise
settings. -/
structure Transform where
  mode : TransformMode
  fromMin : Nat
  fromMax : Nat
  toMin : Nat
  toMax : Nat
  noiseSettings : NoiseSettings
deriving DecidableEq

/-- MatchResult (part_002 lines 345-350): outcome, main packet, optional
noise packet and its delay (time.Duration, nanoseconds). -/
structure MatchResult where
  Result : RuleMatchResult
  MainPacket : Packet
  NoisePacket : Option Packet
  NoiseDelayMs : Int
deriving DecidableEq

/-- Rule (part_002 lines 352-366), static part. The filter and generator
interface values are abstracted as functions: quickMatch is
r.filter.QuickMatch, filterMatch is r.filter.Match (uint16 value), generate
is r.generator.Generate (error as Except). -/
structure Rule where
  transform : Transform
  dropDuplicates : Bool
  dropDuplicatesTimeout : Int
  quickMatch : Nat → Nat → Bool
  filterMatch : Packet → FilterMatchResult × Nat
  generate : Packet → Nat → Except String Packet

/-- The mutable evaluation state of a Rule (part_002 lines 361-365):
lastValue (uint16), lastValueTs, and the PreventRunStatus bookkeeping
fields. -/
structure RuleState where
  lastValue : Nat
  lastValueTs : Int
  lastMsgType : Nat
  lastChannel : Nat
  lastMsgCount : Nat
deriving DecidableEq

/-- rule.New (part_002 lines 368-378): fresh state has the sentinel
lastValue = 0xFFFF, zero-value timestamp, Unknown type, Any channel. -/
def newRuleState : RuleState :=
  ⟨0xFFFF, 0, FilterMsgTypeUnknown, FilterChannelAny, 0⟩

/-- uint32 subtraction a - b, wrapping mod 2^32, for uint32-valued a b. -/
def u32sub (a b : Nat) : Nat := (a + 4294967296 - b) % 4294967296

/-- The slope a = float64(toMax-toMin) / float64(fromMax-fromMin) of the
linear transform (part_002 lines 488, 498, 509), with the uint32
subtractions wrapped; float64 arithmetic modelled as exact ℚ (division by
zero, which in Go float64 yields Inf or NaN, yields 0 in ℚ; theorems that
evaluate the transform carry the nondegeneracy hypothesis fromMin <
fromMax). -/
def linearA (t : Transform) : ℚ :=
  (u32sub t.toMax t.toMin : ℚ) / (u32sub t.fromMax t.fromMin : ℚ)

/-- The offset b = float64(toMin) - a*float64(fromMin) (part_002 lines 489,
499, 510). -/
def linearB (t : Transform) : ℚ :=
  (t.toMin : ℚ) - linearA t * (t.fromMin : ℚ)

/-- Go conversion uint16(f) of a float64: truncation toward zero, which is
Int.floor for nonnegative f, reduced mod 2^16 (for negative or huge f the Go
behaviour is implementation-specific; theorems stay in [0, 2^16)). -/
def goFloatToUint16 (q : ℚ) : Nat := (Int.floor q).toNat % 65536

/-- transformedValue = uint16(a*float64(value) + float64(b)) (part_002
lines 490, 500, 511). -/
def linearApply (t : Transform) (v : Nat) : Nat :=
  goFloatToUint16 (linearA t * (v : ℚ) + linearB t)

/-- generateNoisePacket (part_002 lines 417-448). randNoise is the rand.Intn
oracle; the uint8 arithmetic cannot wrap because MinValue and MaxValue are
uint8. The Go switch emits three bytes for the two-data-byte types and two
bytes both in the one-data-byte case and in the default case, so those two
cases are merged here. -/
def generateNoisePacket (r : Rule) (packet : Packet) (value : Nat) (randNoise : Nat) : Packet :=
  let ns := r.transform.noiseSettings
  let randVal := if ns.MaxValue > ns.MinValue then ns.MinValue + randNoise % (ns.MaxValue - ns.MinValue + 1) else ns.MinValue
  let statusByte := (((ns.MsgType % 256) <<< 4) % 256) ||| (ns.Channel % 256)
  let data :=
    if ns.MsgType = FilterMsgTypeNoteOn ∨ ns.MsgType = FilterMsgTypeNoteOff ∨ ns.MsgType = FilterMsgTypeAftertouch ∨ ns.MsgType = FilterMsgTypeControlChange ∨ ns.MsgType = FilterMsgTypePitchWheel then
      [statusByte, value &&& 0x7F, randVal]
    else
      [statusByte, randVal]
  ⟨data, packet.timeStamp⟩

/-- The noise delay (part_002 lines 521-526): a uint16 millisecond count
from the rand.Intn oracle, converted to time.Duration nanoseconds. -/
def noiseDelayOf (r : Rule) (randDelay : Nat) : Int :=
  let ns := r.transform.noiseSettings
  let delayValue := if ns.DelayMsMax > ns.DelayMsMin then ns.DelayMsMin + randDelay % (ns.DelayMsMax - ns.DelayMsMin + 1) else ns.DelayMsMin
  (delayValue : Int) * 1000000

/-- The noise side-output of the transform switch (part_002 lines 507-527):
present exactly when the mode is Noise. -/
def noiseOf (r : Rule) (packet : Packet) (value : Nat) (randNoise randDelay : Nat) : Option Packet × Int :=
  if r.transform.mode = TransformMode.TransformModeNoise then
    (some (generateNoisePacket r packet value randNoise), noiseDelayOf r randDelay)
  else
    (none, 0)

/-- The value computed by the transform switch of Rule.Match (part_002 lines
480-527), factored out of Match: none models the two early NoMatch returns
of the LinearDrop arm; None and PreventRunStatus have no arm in the Go
switch and leave the value unchanged. -/
def transformValue (r : Rule) (value : Nat) : Option Nat :=
  match r.transform.mode with
  | TransformMode.TransformModeLinear => some (linearApply r.transform value)
  | TransformMode.TransformModeLinearDrop =>
    if value > r.transform.fromMax ∨ value < r.transform.fromMin then none
    else
      let v := linearApply r.transform value
      if v > r.transform.toMax ∨ v < r.transform.toMin then none
      else some v
  | TransformMode.TransformModeNoise => some (linearApply r.transform value)
  | _ => some value

/-- msgType := FilterMsgType((packet.Data[0] & 0xF0) >> 4) (part_002 line
452); the router only dispatches nonempty packets, headD totalizes. -/
def msgTypeOf (packet : Packet) : Nat := (packet.data.headD 0 &&& 0xF0) >>> 4

/-- channel := FilterChannel(packet.Data[0] & 0x0F) (part_002 line 453). -/
def channelOf (packet : Packet) : Nat := packet.data.headD 0 &&& 0x0F

/-- Rule.Match (part_002 lines 451-559). The stages in order: quickMatch
gate, filter match gate, transform switch (transformValue and noiseOf),
duplicate drop, state update, generation (r.output inlined: on error the
original packet is returned), PreventRunStatus bookkeeping. now is the
current time; randNoise and randDelay are the rand.Intn oracles. -/
def Match (r : Rule) (st : RuleState) (packet : Packet) (now : Int) (randNoise randDelay : Nat) : MatchResult × RuleState :=
  if r.quickMatch (msgTypeOf packet) (channelOf packet) = false then
    (⟨RuleMatchResult.NoMatch, packet, none, 0⟩, st)
  else
    let fm := r.filterMatch packet
    if fm.1 = FilterMatchResult.NoMatch then
      (⟨RuleMatchResult.NoMatch, packet, none, 0⟩, st)
    else if fm.1 = FilterMatchResult.MatchNoValue then
      (⟨RuleMatchResult.MatchNoInject, packet, none, 0⟩, st)
    else if fm.1 ≠ FilterMatchResult.Match then
      (⟨RuleMatchResult.NoMatch, packet, none, 0⟩, st)
    else
      match transformValue r fm.2 with
      | none => (⟨RuleMatchResult.NoMatch, packet, none, 0⟩, st)
      | some transformedValue =>
        let np := noiseOf r packet fm.2 randNoise randDelay
        if r.dropDuplicates = true ∧ st.lastValue = transformedValue ∧ now - st.lastValueTs < r.dropDuplicatesTimeout then
          (⟨RuleMatchResult.MatchNoInject, packet, none, 0⟩, st)
        else
          let st1 : RuleState := { st with lastValue := transformedValue, lastValueTs := now }
          match r.generate packet transformedValue with
          | Except.error _ => (⟨RuleMatchResult.MatchInject, packet, none, 0⟩, st1)
          | Except.ok newPacket =>
            if r.transform.mode = TransformMode.TransformModePreventRunStatus then
              (⟨RuleMatchResult.MatchInject, newPacket, np.1, np.2⟩,
               { st1 with lastMsgCount := st1.lastMsgCount + 1, lastMsgType := msgTypeOf packet, lastChannel := channelOf packet })
            else
              (⟨RuleMatchResult.MatchInject, newPacket, np.1, np.2⟩, st1)

/-- midiMessageLength (router.go lines 232-250): total message length from
the status byte. -/
def midiMessageLength (status : Nat) : Nat :=
  if status &&& 0xF0 = 0x80 ∨ status &&& 0xF0 = 0x90 ∨ status &&& 0xF0 = 0xA0 ∨ status &&& 0xF0 = 0xB0 ∨ status &&& 0xF0 = 0xE0 then 3
  else if status &&& 0xF0 = 0xC0 ∨ status &&& 0xF0 = 0xD0 then 2
  else if status &&& 0xF0 = 0xF0 then
    if status = 0xF1 ∨ status = 0xF3 then 2
    else if status = 0xF2 then 3
    else 1
  else 1

/-- The loop of splitMIDIData (router.go lines 218-230), with explicit fuel:
every iteration consumes midiMessageLength status ≥ 1 bytes, so data.length
iterations always reach the Go loop exit (i ≥ len(data) or a trailing
partial message). -/
def splitMIDIDataGo : Nat → List Nat → List (List Nat)
  | 0, _ => []
  | _, [] => []
  | fuel + 1, status :: rest =>
    if (status :: rest).length < midiMessageLength status then []
    else
      (status :: rest).take (midiMessageLength status) ::
        splitMIDIDataGo fuel ((status :: rest).drop (midiMessageLength status))

/-- splitMIDIData (router.go lines 218-230). -/
def splitMIDIData (data : List Nat) : List (List Nat) :=
  splitMIDIDataGo data.length data

/-- The framing decision of onPacket (router.go lines 140-156): a buffer
starting with the SysEx status 0xF0 is one message; otherwise a buffer
longer than 3 bytes is split; otherwise it is a single message. -/
def onPacketSplit (data : List Nat) : List (List Nat) :=
  if data.head? = some 0xF0 then [data]
  else if data.length > 3 then splitMIDIData data
  else [data]

/-- The observable outcome of one handleSinglePacket call: the packets sent
on the wire in order, the updated lastMIDIMsg, the noise packets handed to
scheduleNoisePacket with their delays, and the number of rules on which
Match was invoked. -/
structure DispatchOutcome where
  sends : List Packet
  lastMIDIMsg : Int
  scheduledNoise : List (Packet × Int)
  evaluated : Nat
deriving DecidableEq

/-- The rule loop of handleSinglePacket (router.go lines 175-211). Each
rule is abstracted as the MatchResult its Match call returns for this
packet (each rule is evaluated at most once per packet, so its state is
fixed for this call). The loop: empty packets skip every rule; a
MatchInject result is rate-limit-checked (a failed check returns from
the whole handler), sent, lastMIDIMsg is set to now, a present noise packet
is handed to the scheduler, and iteration stops; a MatchNoInject result
stops iteration with nothing emitted; a NoMatch result moves to the next
rule. -/
def dispatchRules : List (Packet → MatchResult) → Packet → Int → Int → Int → DispatchOutcome
  | [], _, last, _, _ => ⟨[], last, [], 0⟩
  | f :: rest, pkt, last, limit, now =>
    if pkt.data = [] then dispatchRules rest pkt last limit now
    else if (f pkt).Result = RuleMatchResult.MatchInject then
      if now - last ≤ limit then ⟨[], last, [], 1⟩
      else
        ⟨[(f pkt).MainPacket], now,
         (match (f pkt).NoisePacket with
          | some np => [(np, (f pkt).NoiseDelayMs)]
          | none => []), 1⟩
    else if (f pkt).Result = RuleMatchResult.MatchNoInject then ⟨[], last, [], 1⟩
    else
      ⟨(dispatchRules rest pkt last limit now).sends,
       (dispatchRules rest pkt last limit now).lastMIDIMsg,
       (dispatchRules rest pkt last limit now).scheduledNoise,
       (dispatchRules rest pkt last limit now).evaluated + 1⟩

/-- sendAllNotesOffAndResetControllers (router.go lines 252-262): for each
channel 0-15, send CC 123 (all notes off) then CC 121 (reset all
controllers). The Go function body consists of packet.Send calls only: it
neither reads nor writes lastMIDIMsg and performs no rate-limit check. -/
def sendAllNotesOffAndResetControllers : List Packet :=
  (List.range 16).flatMap fun ch =>
    [⟨[0xB0 ||| ch, 123, 0], 0⟩, ⟨[0xB0 ||| ch, 121, 0], 0⟩]

/-- Cleanup (router.go lines 72-74) as a state transformer on lastMIDIMsg:
it emits the panic sequence and leaves the rate-limiter state untouched. -/
def cleanup (last : Int) : List Packet × Int :=
  (sendAllNotesOffAndResetControllers, last)

/-- handleSinglePacket (router.go lines 159-216). The passthrough branch:
rate-limit check, send verbatim, on a leading 0xFC (Stop) also emit the
all-notes-off sequence, then set lastMIDIMsg to now. Otherwise the rule
loop. -/
def handleSinglePacket (passThrough : Bool) (rules : List (Packet → MatchResult)) (pkt : Packet) (last limit now : Int) : DispatchOutcome :=
  if passThrough = true then
    if now - last ≤ limit then ⟨[], last, [], 0⟩
    else
      ⟨pkt :: (if pkt.data.head? = some 0xFC then sendAllNotesOffAndResetControllers else []),
       now, [], 0⟩
  else
    dispatchRules rules pkt last limit now

/-- scheduleNoisePacket (router.go lines 82-127): both the immediate branch
(delay ≤ 0) and the deferred goroutine body perform the same
check-then-send-then-update sequence; last is the value of lastMIDIMsg read
at the check and now is the current time at the check and update. -/
def scheduleNoisePacketAttempt (pkt : Packet) (last limit now : Int) : List Packet × Int :=
  if now - last ≤ limit then ([], last)
  else ([pkt], now)

/-- Shared rate-limiter state for the interleaving model: lastMIDIMsg and
the times of the wire sends performed so far. -/
structure RaceState where
  last : Int
  sends : List Int
deriving DecidableEq

/-- The read of relay.lastMIDIMsg performed by time.Since in a send path
(router.go lines 86, 110, 161, 190). -/
def limiterRead (s : RaceState) : Int := s.last

/-- The rest of a send path after that read: the comparison against
sendLimit, the wire send, and the write relay.lastMIDIMsg = time.Now()
(router.go lines 86-100, 110-125, 190-197); readVal is the value obtained by
limiterRead. The Go code takes no lock between the read and the write, so
another sender may be interleaved between them. -/
def limiterCommit (readVal limit now : Int) (s : RaceState) : RaceState :=
  if now - readVal ≤ limit then s
  else { last := now, sends := s.sends ++ [now] }

/-- Two concurrent senders (the dispatch path and a deferred noise
goroutine) with both reads ordered before either commit: an interleaving
the unsynchronized code permits. -/
def racyTwoSenders (limit nowA nowB : Int) (s : RaceState) : RaceState :=
  let rA := limiterRead s
  let rB := limiterRead s
  limiterCommit rB limit nowB (limiterCommit rA limit nowA s)

/-- The same two senders executed under the atomic critical section the
claim describes: each read immediately followed by its own commit. -/
def serializedTwoSenders (limit nowA nowB : Int) (s : RaceState) : RaceState :=
  let s1 := limiterCommit (limiterRead s) limit nowA s
  limiterCommit (limiterRead s1) limit nowB s1

/-- NoiseSettingsConfig (config.go lines 67-74): raw JSON fields, Go int
and string typed. -/
structure NoiseSettingsConfig where
  MsgType : String
  Channel : String
  MinValue : Int
  MaxValue : Int
  DelayMsMin : Int
  DelayMsMax : Int

/-- TransformConfig (config.go lines 56-64). -/
structure TransformConfig where
  FromMin : Int
  FromMax : Int
  ToMin : Int
  ToMax : Int
  Mode : String
  NoiseSettings : NoiseSettingsConfig

/-- Go conversion uint32(i) of an int: wrap mod 2^32. -/
def u32ofInt (i : Int) : Nat := (i % 4294967296).toNat

/-- Go conversion uint8(i) of an int: wrap mod 2^8. -/
def u8ofInt (i : Int) : Nat := (i % 256).toNat

/-- Go conversion uint16(i) of an int: wrap mod 2^16. -/
def u16ofInt (i : Int) : Nat := (i % 65536).toNat

/-- stringToTransformMode (config.go lines 310-327). -/
def stringToTransformMode (str : String) : Except String TransformMode :=
  if str = "" then Except.ok TransformMode.TransformModeNone
  else if str = "None" then Except.ok TransformMode.TransformModeNone
  else if str = "Linear" then Except.ok TransformMode.TransformModeLinear
  else if str = "LinearDrop" then Except.ok TransformMode.TransformModeLinearDrop
  else if str = "Noise" then Except.ok TransformMode.TransformModeNoise
  else if str = "PreventRunningStatus" then Except.ok TransformMode.TransformModePreventRunStatus
  else Except.error ("Invalid transform mode: " ++ str)

/-- stringToMsgType (config.go lines 369-392). -/
def stringToMsgType (str : String) : Except String Nat :=
  if str = "Note On" then Except.ok FilterMsgTypeNoteOn
  else if str = "Note Off" then Except.ok FilterMsgTypeNoteOff
  else if str = "Aftertouch" then Except.ok FilterMsgTypeAftertouch
  else if str = "Control Change" then Except.ok FilterMsgTypeControlChange
  else if str = "Program Change" then Except.ok FilterMsgTypeProgramChange
  else if str = "Channel Pressure" then Except.ok FilterMsgTypeChannelPressure
  else if str = "Pitch Wheel" then Except.ok FilterMsgTypePitchWheel
  else if str = "SysEx" then Except.ok FilterMsgTypeSysEx
  else if str = "*" then Except.ok FilterMsgTypeAny
  else Except.error ("Invalid message type: " ++ str)

/-- stringToFilterChannel (config.go lines 329-367): channels "1"-"16" map
to the low nibbles 0-15, "*" to Any. -/
def stringToFilterChannel (str : String) : Except String Nat :=
  if str = "1" then Except.ok 0
  else if str = "2" then Except.ok 1
  else if str = "3" then Except.ok 2
  else if str = "4" then Except.ok 3
  else if str = "5" then Except.ok 4
  else if str = "6" then Except.ok 5
  else if str = "7" then Except.ok 6
  else if str = "8" then Except.ok 7
  else if str = "9" then Except.ok 8
  else if str = "10" then Except.ok 9
  else if str = "11" then Except.ok 10
  else if str = "12" then Except.ok 11
  else if str = "13" then Except.ok 12
  else if str = "14" then Except.ok 13
  else if str = "15" then Except.ok 14
  else if str = "16" then Except.ok 15
  else if str = "*" then Except.ok FilterChannelAny
  else Except.error ("Invalid MIDI channel value: " ++ str)

/-- The transform-loading step of config.LoadConfig (config.go lines
187-234): parse the mode; for mode None keep the rule.New default
transform; otherwise install the four bounds via SetTransform with uint32
conversion and, for Noise only, parse the noise message type and channel
and reject MaxValue > 127. This is the complete validation the Go code
performs on a transform: the bounds themselves are never checked. Returns
the transform carried by the constructed rule, or the construction
error. -/
def loadTransform (cfg : TransformConfig) : Except String Transform :=
  match stringToTransformMode cfg.Mode with
  | Except.error e => Except.error e
  | Except.ok mode =>
    if mode = TransformMode.TransformModeNone then
      Except.ok ⟨TransformMode.TransformModeNone, 0, 0, 0, 0, noNoise⟩
    else
      let t : Transform :=
        ⟨mode, u32ofInt cfg.FromMin, u32ofInt cfg.FromMax, u32ofInt cfg.ToMin, u32ofInt cfg.ToMax, noNoise⟩
      if mode = TransformMode.TransformModeNoise then
        match stringToMsgType cfg.NoiseSettings.MsgType with
        | Except.error e => Except.error ("Invalid noise message type: " ++ e)
        | Except.ok nmt =>
          match stringToFilterChannel cfg.NoiseSettings.Channel with
          | Except.error e => Except.error ("Invalid noise channel: " ++ e)
          | Except.ok nch =>
            if cfg.NoiseSettings.MaxValue > 127 then
              Except.error "Noise MaxValue exceeds MIDI limit of 127"
            else
              Except.ok { t with noiseSettings :=
                ⟨nmt, nch, u8ofInt cfg.NoiseSettings.MinValue, u8ofInt cfg.NoiseSettings.MaxValue,
                 u16ofInt cfg.NoiseSettings.DelayMsMin, u16ofInt cfg.NoiseSettings.DelayMsMax⟩ }
      else
        Except.ok t

/-- The Linear formula as the spec states it (section 4.3): transformed =
round(a*value + b) with a and b over the unwrapped integer bounds; written
from the spec wording, to be compared with linearApply. -/
def linearSpecRound (fromMin fromMax toMin toMax v : ℤ) : ℤ :=
  round (((toMax : ℚ) - toMin) / ((fromMax : ℚ) - fromMin) * v +
    ((toMin : ℚ) - ((toMax : ℚ) - toMin) / ((fromMax : ℚ) - fromMin) * fromMin))

theorem midiMessageLength_pos (status : Nat) : 1 ≤ midiMessageLength status := by
  unfold midiMessageLength
  repeat' split
  all_goals decide

theorem splitMIDIDataGo_flatten (fuel : Nat) :
    ∀ d : List Nat, ∃ t, (splitMIDIDataGo fuel d).flatten ++ t = d := by
  induction fuel with
  | zero => intro d; exact ⟨d, by cases d <;> simp [splitMIDIDataGo]⟩
  | succ fuel ih =>
    intro d
    match d with
    | [] => exact ⟨[], by simp [splitMIDIDataGo]⟩
    | status :: rest =>
      simp only [splitMIDIDataGo]
      split
      · exact ⟨status :: rest, rfl⟩
      · obtain ⟨t, ht⟩ := ih ((status :: rest).drop (midiMessageLength status))
        refine ⟨t, ?_⟩
        rw [List.flatten_cons, List.append_assoc, ht, List.take_append_drop]

theorem splitMIDIDataGo_mem (fuel : Nat) :
    ∀ (d : List Nat) (m : List Nat), m ∈ splitMIDIDataGo fuel d →
    ∃ s r, m = s :: r ∧ m.length = midiMessageLength s := by
  induction fuel with
  | zero => intro d m h; simp [splitMIDIDataGo] at h
  | succ fuel ih =>
    intro d m h
    match d with
    | [] => simp [splitMIDIDataGo] at h
    | status :: rest =>
      simp only [splitMIDIDataGo] at h
      split at h
      · simp at h
      · rename_i hlen
        rcases List.mem_cons.mp h with h1 | h2
        · refine ⟨status, rest.take (midiMessageLength status - 1), ?_, ?_⟩
          · rw [h1, List.take_cons (midiMessageLength_pos status)]
          · rw [h1, List.length_take]
            simp only [List.length_cons] at hlen
            simp only [List.length_cons]
            omega
        · exact ih _ _ h2

/-- C5: for byte buffers not starting with 0xF0 and longer than 3 bytes,
onPacket splits via splitMIDIData; every produced slice has the
table-defined length for its leading status byte; the concatenation of the
slices is a prefix of the buffer (the undersized trailing remainder is
dropped); and a buffer starting with 0xF0 is handled as a single message
with no splitting. -/
theorem framing_splits_by_table (d : List Nat) :
    (d.head? ≠ some 0xF0 → d.length > 3 → onPacketSplit d = splitMIDIData d)
    ∧ (∀ m ∈ splitMIDIData d, ∃ s r, m = s :: r ∧ m.length = midiMessageLength s)
    ∧ (∃ t, (splitMIDIData d).flatten ++ t = d)
    ∧ (d.head? = some 0xF0 → onPacketSplit d = [d]) := by
  refine ⟨?_, ?_, ?_, ?_⟩
  · intro h1 h2
    simp [onPacketSplit, h1, h2]
  · intro m hm
    exact splitMIDIDataGo_mem _ _ _ hm
  · exact splitMIDIDataGo_flatten _ _
  · intro h
    simp [onPacketSplit, h]

/-- Witness for C5 at a concrete buffer: [0x90,1,2,0xC0,5,0xB0] is longer
than 3 bytes and does not start with 0xF0; it splits into a 3-byte Note On
and a 2-byte Program Change, dropping the undersized trailing 0xB0; a
0xF0-leading buffer stays whole. -/
theorem framing_splits_by_table_witness :
    onPacketSplit [0x90, 1, 2, 0xC0, 5, 0xB0] = splitMIDIData [0x90, 1, 2, 0xC0, 5, 0xB0]
    ∧ splitMIDIData [0x90, 1, 2, 0xC0, 5, 0xB0] = [[0x90, 1, 2], [0xC0, 5]]
    ∧ onPacketSplit [0xF0, 1, 2, 3, 4] = [[0xF0, 1, 2, 3, 4]] :=
  ⟨(framing_splits_by_table _).1 (by decide) (by decide),
   by decide,
   (framing_splits_by_table _).2.2.2 (by decide)⟩

theorem dispatchRules_send_guard (rules : List (Packet → MatchResult)) (pkt : Packet)
    (last limit now : Int) :
    (dispatchRules rules pkt last limit now).sends ≠ [] →
    ¬ (now - last ≤ limit) ∧ (dispatchRules rules pkt last limit now).lastMIDIMsg = now := by
  induction rules with
  | nil => intro h; simp [dispatchRules] at h
  | cons f rest ih =>
    intro h
    by_cases hd : pkt.data = []
    · simp only [dispatchRules, if_pos hd] at h ⊢
      exact ih h
    · by_cases hi : (f pkt).Result = RuleMatchResult.MatchInject
      · by_cases hl : now - last ≤ limit
        · simp only [dispatchRules, if_neg hd, if_pos hi, if_pos hl] at h
          simp at h
        · simp only [dispatchRules, if_neg hd, if_pos hi, if_neg hl]
          exact ⟨hl, by trivial⟩
      · by_cases hn : (f pkt).Result = RuleMatchResult.MatchNoInject
        · simp only [dispatchRules, if_neg hd, if_neg hi, if_pos hn] at h
          simp at h
        · simp only [dispatchRules, if_neg hd, if_neg hi, if_neg hn] at h ⊢
          exact ih h

theorem dispatchRules_limited (rules : List (Packet → MatchResult)) (pkt : Packet)
    (last limit now : Int) (h : now - last ≤ limit) :
    (dispatchRules rules pkt last limit now).sends = []
    ∧ (dispatchRules rules pkt last limit now).scheduledNoise = []
    ∧ (dispatchRules rules pkt last limit now).lastMIDIMsg = last := by
  induction rules with
  | nil => simp [dispatchRules]
  | cons f rest ih =>
    by_cases hd : pkt.data = []
    · simp only [dispatchRules, if_pos hd]
      exact ih
    · by_cases hi : (f pkt).Result = RuleMatchResult.MatchInject
      · simp only [dispatchRules, if_neg hd, if_pos hi, if_pos h]
        exact ⟨by trivial, by trivial, by trivial⟩
      · by_cases hn : (f pkt).Result = RuleMatchResult.MatchNoInject
        · simp only [dispatchRules, if_neg hd, if_neg hi, if_pos hn]
          exact ⟨by trivial, by trivial, by trivial⟩
        · simp only [dispatchRules, if_neg hd, if_neg hi, if_neg hn]
          exact ih

theorem dispatchRules_all_nomatch (rules : List (Packet → MatchResult)) (pkt : Packet)
    (last limit now : Int)
    (h : ∀ g ∈ rules, (g pkt).Result = RuleMatchResult.NoMatch) :
    (dispatchRules rules pkt last limit now).sends = []
    ∧ (dispatchRules rules pkt last limit now).lastMIDIMsg = last
    ∧ (dispatchRules rules pkt last limit now).scheduledNoise = [] := by
  induction rules with
  | nil => simp [dispatchRules]
  | cons f rest ih =>
    have hf : (f pkt).Result = RuleMatchResult.NoMatch := h f (List.mem_cons_self f rest)
    have hrest : ∀ g ∈ rest, (g pkt).Result = RuleMatchResult.NoMatch :=
      fun g hg => h g (List.mem_cons_of_mem f hg)
    have hi : (f pkt).Result ≠ RuleMatchResult.MatchInject := by simp [hf]
    have hn : (f pkt).Result ≠ RuleMatchResult.MatchNoInject := by simp [hf]
    by_cases hd : pkt.data = []
    · simp only [dispatchRules, if_pos hd]
      exact ih hrest
    · simp only [dispatchRules, if_neg hd, if_neg hi, if_neg hn]
      exact ih hrest

/-- C6: in non-passthrough mode, rules are evaluated in declared list
order. A head rule returning MatchInject decides the outcome by itself
(rate-limit check, send of its main packet, a present noise packet handed
to the scheduler) and the remaining rules are never evaluated; a head rule
returning MatchNoInject stops iteration with nothing emitted; a head rule
returning NoMatch defers to the remaining rules (one more Match
invocation counted); and when every rule returns NoMatch, nothing is sent
and the limiter state is untouched. -/
theorem dispatch_first_match_wins (f : Packet → MatchResult)
    (rest : List (Packet → MatchResult)) (pkt : Packet) (last limit now : Int)
    (hne : pkt.data ≠ []) :
    ((f pkt).Result = RuleMatchResult.MatchInject →
      dispatchRules (f :: rest) pkt last limit now =
        if now - last ≤ limit then ⟨[], last, [], 1⟩
        else ⟨[(f pkt).MainPacket], now,
          (match (f pkt).NoisePacket with
           | some np => [(np, (f pkt).NoiseDelayMs)]
           | none => []), 1⟩)
    ∧ ((f pkt).Result = RuleMatchResult.MatchNoInject →
      dispatchRules (f :: rest) pkt last limit now = ⟨[], last, [], 1⟩)
    ∧ ((f pkt).Result = RuleMatchResult.NoMatch →
      dispatchRules (f :: rest) pkt last limit now =
        ⟨(dispatchRules rest pkt last limit now).sends,
         (dispatchRules rest pkt last limit now).lastMIDIMsg,
         (dispatchRules rest pkt last limit now).scheduledNoise,
         (dispatchRules rest pkt last limit now).evaluated + 1⟩)
    ∧ (∀ rest2 : List (Packet → MatchResult), (f pkt).Result ≠ RuleMatchResult.NoMatch →
      dispatchRules (f :: rest) pkt last limit now = dispatchRules (f :: rest2) pkt last limit now)
    ∧ (∀ rules : List (Packet → MatchResult),
      (∀ g ∈ rules, (g pkt).Result = RuleMatchResult.NoMatch) →
      (dispatchRules rules pkt last limit now).sends = []
      ∧ (dispatchRules rules pkt last limit now).lastMIDIMsg = last) := by
  refine ⟨?_, ?_, ?_, ?_, ?_⟩
  · intro h
    simp only [dispatchRules, if_neg hne, if_pos h]
  · intro h
    have hi : (f pkt).Result ≠ RuleMatchResult.MatchInject := by simp [h]
    simp only [dispatchRules, if_neg hne, if_neg hi, if_pos h]
  · intro h
    have hi : (f pkt).Result ≠ RuleMatchResult.MatchInject := by simp [h]
    have hn : (f pkt).Result ≠ RuleMatchResult.MatchNoInject := by simp [h]
    simp only [dispatchRules, if_neg hne, if_neg hi, if_neg hn]
  · intro rest2 h
    by_cases hi : (f pkt).Result = RuleMatchResult.MatchInject
    · simp only [dispatchRules, if_neg hne, if_pos hi]
    · have hn : (f pkt).Result = RuleMatchResult.MatchNoInject := by
        cases hr : (f pkt).Result
        · exact absurd hr h
        · exact absurd hr hi
        · rfl
      simp only [dispatchRules, if_neg hne, if_neg hi, if_pos hn]
  · intro rules hall
    exact ⟨(dispatchRules_all_nomatch rules pkt last limit now hall).1,
           (dispatchRules_all_nomatch rules pkt last limit now hall).2.1⟩

/-- A rule whose Match always returns MatchInject with the incoming packet
as main packet, used to instantiate the dispatch theorems. -/
def alwaysInjectRule : Packet → MatchResult :=
  fun p => ⟨RuleMatchResult.MatchInject, p, none, 0⟩

/-- A rule whose Match always returns MatchNoInject. -/
def alwaysNoInjectRule : Packet → MatchResult :=
  fun p => ⟨RuleMatchResult.MatchNoInject, p, none, 0⟩

/-- A rule whose Match always returns NoMatch. -/
def neverMatchRule : Packet → MatchResult :=
  fun p => ⟨RuleMatchResult.NoMatch, p, none, 0⟩

/-- A concrete Note On packet. -/
def packet90 : Packet := ⟨[0x90, 60, 100], 0⟩

/-- Witness for C6: with an injecting head rule, a trailing rule, and the
limiter window already clear (last = 0, limit = 100, now = 500), the head
rule alone decides: exactly its packet is sent, the timestamp advances to
500, and one rule was evaluated. -/
theorem dispatch_first_match_wins_witness :
    dispatchRules [alwaysInjectRule, alwaysNoInjectRule] packet90 0 100 500 =
      ⟨[packet90], 500, [], 1⟩ := by
  have h := (dispatch_first_match_wins alwaysInjectRule [alwaysNoInjectRule]
    packet90 0 100 500 (by decide)).1 rfl
  rw [h]
  decide

theorem Match_eq_afterGate (r : Rule) (st : RuleState) (pkt : Packet) (now : Int)
    (rn rd : Nat) (v tv : Nat)
    (hq : r.quickMatch (msgTypeOf pkt) (channelOf pkt) = true)
    (hf : r.filterMatch pkt = (FilterMatchResult.Match, v))
    (ht : transformValue r v = some tv) :
    Match r st pkt now rn rd =
      if r.dropDuplicates = true ∧ st.lastValue = tv ∧ now - st.lastValueTs < r.dropDuplicatesTimeout then
        (⟨RuleMatchResult.MatchNoInject, pkt, none, 0⟩, st)
      else
        match r.generate pkt tv with
        | Except.error _ =>
          (⟨RuleMatchResult.MatchInject, pkt, none, 0⟩,
           { st with lastValue := tv, lastValueTs := now })
        | Except.ok newPacket =>
          if r.transform.mode = TransformMode.TransformModePreventRunStatus then
            (⟨RuleMatchResult.MatchInject, newPacket, (noiseOf r pkt v rn rd).1, (noiseOf r pkt v rn rd).2⟩,
             ⟨tv, now, msgTypeOf pkt, channelOf pkt, st.lastMsgCount + 1⟩)
          else
            (⟨RuleMatchResult.MatchInject, newPacket, (noiseOf r pkt v rn rd).1, (noiseOf r pkt v rn rd).2⟩,
             { st with lastValue := tv, lastValueTs := now }) := by
  have hq2 : ¬ (r.quickMatch (msgTypeOf pkt) (channelOf pkt) = false) := by simp [hq]
  simp only [Match, if_neg hq2, hf]
  simp [ht]

theorem Match_eq_dropGate (r : Rule) (st : RuleState) (pkt : Packet) (now : Int)
    (rn rd : Nat) (v : Nat)
    (hf : r.filterMatch pkt = (FilterMatchResult.Match, v))
    (ht : transformValue r v = none) :
    Match r st pkt now rn rd = (⟨RuleMatchResult.NoMatch, pkt, none, 0⟩, st) := by
  by_cases hq : r.quickMatch (msgTypeOf pkt) (channelOf pkt) = false
  · simp only [Match, if_pos hq]
  · simp only [Match, if_neg hq, hf]
    simp [ht]

/-- C7: with dropDuplicates enabled, a transformed value equal to lastValue
arriving within the timeout short-circuits to MatchNoInject without
invoking the generator (the result is identical for every generator) and
leaves lastValue and lastValueTs unchanged; on the non-dropped path both
are updated to the transformed value and now before generation (the update
persists even when generation fails); and from the fresh rule state, whose
sentinel lastValue = 0xFFFF lies outside 0..16383, a first match with
transformed value in 0..16383 is never treated as a duplicate. -/
theorem dedup_drop_semantics (r : Rule) (st : RuleState) (pkt : Packet) (now : Int)
    (rn rd : Nat) (v tv : Nat)
    (hq : r.quickMatch (msgTypeOf pkt) (channelOf pkt) = true)
    (hf : r.filterMatch pkt = (FilterMatchResult.Match, v))
    (ht : transformValue r v = some tv) :
    (r.dropDuplicates = true → st.lastValue = tv → now - st.lastValueTs < r.dropDuplicatesTimeout →
      ∀ g : Packet → Nat → Except String Packet,
        Match { r with generate := g } st pkt now rn rd =
          (⟨RuleMatchResult.MatchNoInject, pkt, none, 0⟩, st))
    ∧ (¬ (r.dropDuplicates = true ∧ st.lastValue = tv ∧ now - st.lastValueTs < r.dropDuplicatesTimeout) →
      (Match r st pkt now rn rd).2.lastValue = tv ∧ (Match r st pkt now rn rd).2.lastValueTs = now)
    ∧ (st.lastValue = 0xFFFF → tv ≤ 16383 →
      (Match r st pkt now rn rd).1.Result = RuleMatchResult.MatchInject) := by
  refine ⟨?_, ?_, ?_⟩
  · intro hd hlv hts g
    rw [Match_eq_afterGate { r with generate := g } st pkt now rn rd v tv hq hf ht,
      if_pos ⟨hd, hlv, hts⟩]
  · intro hnd
    rw [Match_eq_afterGate r st pkt now rn rd v tv hq hf ht, if_neg hnd]
    cases hg : r.generate pkt tv with
    | error e => exact ⟨rfl, rfl⟩
    | ok newPacket =>
      dsimp only
      by_cases hm : r.transform.mode = TransformMode.TransformModePreventRunStatus
      · rw [if_pos hm]; exact ⟨rfl, rfl⟩
      · rw [if_neg hm]; exact ⟨rfl, rfl⟩
  · intro hsent htv
    have hnd : ¬ (r.dropDuplicates = true ∧ st.lastValue = tv ∧ now - st.lastValueTs < r.dropDuplicatesTimeout) := by
      rintro ⟨-, hlv, -⟩
      rw [hsent] at hlv
      omega
    rw [Match_eq_afterGate r st pkt now rn rd v tv hq hf ht, if_neg hnd]
    cases hg : r.generate pkt tv with
    | error e => rfl
    | ok newPacket =>
      dsimp only
      by_cases hm : r.transform.mode = TransformMode.TransformModePreventRunStatus
      · rw [if_pos hm]
      · rw [if_neg hm]

/-- C8: under LinearDrop, a value outside [fromMin, fromMax] makes the rule
yield NoMatch (state untouched, nothing generated, evaluation free to move
to the next rule); a value whose mapped result falls outside
[toMin, toMax] likewise yields NoMatch. -/
theorem lineardrop_range_enforcement (r : Rule) (st : RuleState) (pkt : Packet)
    (now : Int) (rn rd : Nat) (v : Nat)
    (hf : r.filterMatch pkt = (FilterMatchResult.Match, v))
    (hm : r.transform.mode = TransformMode.TransformModeLinearDrop) :
    ((v > r.transform.fromMax ∨ v < r.transform.fromMin) →
      Match r st pkt now rn rd = (⟨RuleMatchResult.NoMatch, pkt, none, 0⟩, st))
    ∧ ((linearApply r.transform v > r.transform.toMax ∨ linearApply r.transform v < r.transform.toMin) →
      Match r st pkt now rn rd = (⟨RuleMatchResult.NoMatch, pkt, none, 0⟩, st)) := by
  constructor
  · intro hout
    refine Match_eq_dropGate r st pkt now rn rd v hf ?_
    unfold transformValue
    rw [hm]
    simp [hout]
  · intro hout
    refine Match_eq_dropGate r st pkt now rn rd v hf ?_
    unfold transformValue
    rw [hm]
    by_cases hin : v > r.transform.fromMax ∨ v < r.transform.fromMin
    · simp [hin]
    · simp [hin, hout]

/-- C9: when the generation step fails, Rule.Match degrades to MatchInject
with the original incoming packet as main packet — never NoMatch and never
a dropped message. -/
theorem generator_failure_is_passthrough (r : Rule) (st : RuleState) (pkt : Packet)
    (now : Int) (rn rd : Nat) (v tv : Nat) (e : String)
    (hq : r.quickMatch (msgTypeOf pkt) (channelOf pkt) = true)
    (hf : r.filterMatch pkt = (FilterMatchResult.Match, v))
    (ht : transformValue r v = some tv)
    (hnd : ¬ (r.dropDuplicates = true ∧ st.lastValue = tv ∧ now - st.lastValueTs < r.dropDuplicatesTimeout))
    (hg : r.generate pkt tv = Except.error e) :
    (Match r st pkt now rn rd).1.Result = RuleMatchResult.MatchInject
    ∧ (Match r st pkt now rn rd).1.MainPacket = pkt := by
  rw [Match_eq_afterGate r st pkt now rn rd v tv hq hf ht, if_neg hnd, hg]
  exact ⟨rfl, rfl⟩

/-- C10: a noise side-packet is delivered only when the primary path fully
succeeds. When the generator fails, the returned MatchResult carries no
noise packet (the built noise packet is discarded); and when the rate
limiter is closed, the dispatch returns before any noise packet is handed
to the scheduler and nothing is sent. -/
theorem noise_only_on_success :
    (∀ (r : Rule) (st : RuleState) (pkt : Packet) (now : Int) (rn rd : Nat) (v tv : Nat) (e : String),
      r.filterMatch pkt = (FilterMatchResult.Match, v) →
      r.transform.mode = TransformMode.TransformModeNoise →
      transformValue r v = some tv →
      r.generate pkt tv = Except.error e →
      (Match r st pkt now rn rd).1.NoisePacket = none)
    ∧ (∀ (rules : List (Packet → MatchResult)) (pkt : Packet) (last limit now : Int),
      now - last ≤ limit →
      (dispatchRules rules pkt last limit now).scheduledNoise = []
      ∧ (dispatchRules rules pkt last limit now).sends = []) := by
  constructor
  · intro r st pkt now rn rd v tv e hf hm ht hg
    by_cases hq : r.quickMatch (msgTypeOf pkt) (channelOf pkt) = false
    · simp only [Match, if_pos hq]
    · have hq2 : r.quickMatch (msgTypeOf pkt) (channelOf pkt) = true := by
        revert hq
        cases r.quickMatch (msgTypeOf pkt) (channelOf pkt) <;> simp
      rw [Match_eq_afterGate r st pkt now rn rd v tv hq2 hf ht]
      by_cases hnd : r.dropDuplicates = true ∧ st.lastValue = tv ∧ now - st.lastValueTs < r.dropDuplicatesTimeout
      · rw [if_pos hnd]
      · rw [if_neg hnd, hg]
  · intro rules pkt last limit now h
    exact ⟨(dispatchRules_limited rules pkt last limit now h).2.1,
           (dispatchRules_limited rules pkt last limit now h).1⟩

/-- C1 (amended): the passthrough send, the rule-matched primary send, and
the noise sends (immediate and deferred) are each preceded by the
rate-limit check against lastMIDIMsg, and each successful send sets
lastMIDIMsg to now; the all-notes-off/reset-controllers sequence, by
contrast, emits its 32 packets unconditionally, performing no check and
leaving lastMIDIMsg untouched. -/
theorem rate_limiter_send_paths (pkt p2 : Packet) (rules : List (Packet → MatchResult))
    (last limit now : Int) :
    ((now - last ≤ limit → handleSinglePacket true rules pkt last limit now = ⟨[], last, [], 0⟩)
    ∧ (¬ (now - last ≤ limit) →
        (handleSinglePacket true rules pkt last limit now).lastMIDIMsg = now
        ∧ (handleSinglePacket true rules pkt last limit now).sends.head? = some pkt))
    ∧ ((handleSinglePacket false rules pkt last limit now).sends ≠ [] →
        ¬ (now - last ≤ limit)
        ∧ (handleSinglePacket false rules pkt last limit now).lastMIDIMsg = now)
    ∧ ((now - last ≤ limit → scheduleNoisePacketAttempt p2 last limit now = ([], last))
    ∧ (¬ (now - last ≤ limit) → scheduleNoisePacketAttempt p2 last limit now = ([p2], now)))
    ∧ (cleanup last = (sendAllNotesOffAndResetControllers, last)
       ∧ sendAllNotesOffAndResetControllers.length = 32) := by
  refine ⟨⟨?_, ?_⟩, ?_, ⟨?_, ?_⟩, rfl, by decide⟩
  · intro h
    simp [handleSinglePacket, h]
  · intro h
    constructor
    · simp [handleSinglePacket, h]
    · simp [handleSinglePacket, h]
  · intro h
    have h2 : (dispatchRules rules pkt last limit now).sends ≠ [] := by
      simpa [handleSinglePacket] using h
    have h3 := dispatchRules_send_guard rules pkt last limit now h2
    constructor
    · exact h3.1
    · simpa [handleSinglePacket] using h3.2
  · intro h
    simp [scheduleNoisePacketAttempt, h]
  · intro h
    simp [scheduleNoisePacketAttempt, h]

/-- Witness for C1 (amended) at concrete times: with last = 0 and
limit = 100, a passthrough dispatch at now = 500 sends the packet and
advances the timestamp to 500; at now = 50 (inside the window) it sends
nothing; an immediate noise attempt at now = 50 is dropped with the
timestamp unchanged. -/
theorem rate_limiter_send_paths_witness :
    ((handleSinglePacket true [] packet90 0 100 500).lastMIDIMsg = 500
     ∧ (handleSinglePacket true [] packet90 0 100 500).sends.head? = some packet90)
    ∧ handleSinglePacket true [] packet90 0 100 50 = ⟨[], 0, [], 0⟩
    ∧ scheduleNoisePacketAttempt packet90 0 100 50 = ([], 0) :=
  ⟨(rate_limiter_send_paths packet90 packet90 [] 0 100 500).1.2 (by decide),
   (rate_limiter_send_paths packet90 packet90 [] 0 100 50).1.1 (by decide),
   (rate_limiter_send_paths packet90 packet90 [] 0 100 50).2.2.1.1 (by decide)⟩

/-- C1 as stated is false: with last = 0, sendLimit = 100 and now = 50 the
limiter window is still closed (now - last ≤ limit), yet the
all-notes-off/reset-controllers sequence emits its packets anyway, and the
shared timestamp stays 0 instead of being set to now. -/
theorem rate_limiter_cleanup_cex :
    ((50 : Int) - 0 ≤ 100)
    ∧ (cleanup 0).1 ≠ []
    ∧ (cleanup 0).2 = 0
    ∧ (cleanup 0).2 ≠ 50 := by decide

/-- C4 is refuted by the code: relay.lastMIDIMsg is read and written with
plain field accesses (no mutex, no compare-and-swap anywhere in the
router package), so the interleaving in which the dispatch path and a
deferred noise goroutine both read before either writes is permitted. At
last = 0 and limit = 100 it lets the senders at now = 200 and now = 201
both pass the check and send 1 apart — within the limit — while the atomic
critical section the claim describes admits only the first. -/
theorem unsynchronized_limiter_race :
    racyTwoSenders 100 200 201 ⟨0, []⟩ = ⟨201, [200, 201]⟩
    ∧ serializedTwoSenders 100 200 201 ⟨0, []⟩ = ⟨200, [200]⟩
    ∧ (201 : Int) - 200 ≤ 100 := by decide

/-- C2 is refuted by the code: the transform-loading step of LoadConfig
accepts a Linear transform with the degenerate bounds fromMin = fromMax = 0
— no bounds validation exists anywhere in LoadConfig or SetTransform — and
returns success, carrying the degenerate bounds into the constructed rule,
whose linear map then divides by fromMax - fromMin = 0 at evaluation
time. -/
theorem config_accepts_degenerate_bounds :
    loadTransform ⟨0, 0, 0, 127, "Linear", ⟨"", "", 0, 0, 0, 0⟩⟩ =
      Except.ok ⟨TransformMode.TransformModeLinear, 0, 0, 0, 127, noNoise⟩ := by
  rfl

theorem u32sub_of_le (a b : Nat) (hba : b ≤ a) (ha : a < 4294967296) :
    u32sub a b = a - b := by
  unfold u32sub
  omega

theorem linearApply_eq_floor (t : Transform) (v : Nat)
    (h1 : t.fromMin < t.fromMax) (h2 : t.toMin ≤ t.toMax)
    (h3 : t.fromMax < 4294967296) (h4 : t.toMax < 4294967296)
    (h5 : t.toMax ≤ 65535) (h6 : t.fromMin ≤ v) (h7 : v ≤ t.fromMax) :
    (linearApply t v : ℤ) =
      Int.floor (((t.toMax : ℚ) - t.toMin) / ((t.fromMax : ℚ) - t.fromMin) * (v : ℚ) +
        ((t.toMin : ℚ) - ((t.toMax : ℚ) - t.toMin) / ((t.fromMax : ℚ) - t.fromMin) * (t.fromMin : ℚ))) := by
  have hA : ((u32sub t.toMax t.toMin : Nat) : ℚ) = (t.toMax : ℚ) - t.toMin := by
    rw [u32sub_of_le t.toMax t.toMin h2 h4]
    push_cast [h2]
    ring
  have hF : ((u32sub t.fromMax t.fromMin : Nat) : ℚ) = (t.fromMax : ℚ) - t.fromMin := by
    rw [u32sub_of_le t.fromMax t.fromMin (Nat.le_of_lt h1) h3]
    push_cast [Nat.le_of_lt h1]
    ring
  have hq : linearA t * (v : ℚ) + linearB t =
      ((t.toMax : ℚ) - t.toMin) / ((t.fromMax : ℚ) - t.fromMin) * (v : ℚ) +
        ((t.toMin : ℚ) - ((t.toMax : ℚ) - t.toMin) / ((t.fromMax : ℚ) - t.fromMin) * (t.fromMin : ℚ)) := by
    unfold linearB linearA
    rw [hA, hF]
  set q : ℚ := ((t.toMax : ℚ) - t.toMin) / ((t.fromMax : ℚ) - t.fromMin) * (v : ℚ) +
        ((t.toMin : ℚ) - ((t.toMax : ℚ) - t.toMin) / ((t.fromMax : ℚ) - t.fromMin) * (t.fromMin : ℚ)) with hqdef
  have hFpos : (0 : ℚ) < (t.fromMax : ℚ) - t.fromMin := by
    have hc : (t.fromMin : ℚ) < (t.fromMax : ℚ) := by exact_mod_cast h1
    linarith
  have hAnn : (0 : ℚ) ≤ (t.toMax : ℚ) - t.toMin := by
    have hc : (t.toMin : ℚ) ≤ (t.toMax : ℚ) := by exact_mod_cast h2
    linarith
  have hqeq : q = (t.toMin : ℚ) +
      ((t.toMax : ℚ) - t.toMin) / ((t.fromMax : ℚ) - t.fromMin) * ((v : ℚ) - t.fromMin) := by
    rw [hqdef]; ring
  have hlo : (t.toMin : ℚ) ≤ q := by
    rw [hqeq]
    have hvm : (t.fromMin : ℚ) ≤ (v : ℚ) := by exact_mod_cast h6
    have hnn : (0 : ℚ) ≤ ((t.toMax : ℚ) - t.toMin) / ((t.fromMax : ℚ) - t.fromMin) * ((v : ℚ) - t.fromMin) :=
      mul_nonneg (div_nonneg hAnn (le_of_lt hFpos)) (by linarith)
    linarith
  have hhi : q ≤ (t.toMax : ℚ) := by
    rw [hqeq]
    have hvM : (v : ℚ) ≤ (t.fromMax : ℚ) := by exact_mod_cast h7
    have hstep : ((t.toMax : ℚ) - t.toMin) / ((t.fromMax : ℚ) - t.fromMin) * ((v : ℚ) - t.fromMin)
        ≤ ((t.toMax : ℚ) - t.toMin) / ((t.fromMax : ℚ) - t.fromMin) * ((t.fromMax : ℚ) - t.fromMin) :=
      mul_le_mul_of_nonneg_left (by linarith) (div_nonneg hAnn (le_of_lt hFpos))
    rw [div_mul_cancel₀ _ (ne_of_gt hFpos)] at hstep
    linarith
  have hfl0 : 0 ≤ Int.floor q := by
    rw [Int.le_floor]
    have hc : (0 : ℚ) ≤ (t.toMin : ℚ) := Nat.cast_nonneg _
    push_cast
    linarith
  have hflU : Int.floor q ≤ 65535 := by
    have hle : (Int.floor q : ℚ) ≤ q := Int.floor_le q
    have hM : q ≤ (65535 : ℚ) := by
      have hc : (t.toMax : ℚ) ≤ 65535 := by exact_mod_cast h5
      linarith
    have : (Int.floor q : ℚ) ≤ (65535 : ℚ) := le_trans hle hM
    exact_mod_cast this
  unfold linearApply goFloatToUint16
  rw [hq]
  rw [Nat.mod_eq_of_lt (by omega : (Int.floor q).toNat < 65536)]
  exact Int.toNat_of_nonneg hfl0

/-- The identity bounds of the spec boundary case: Linear from [0,127] to
[0,127]. -/
def tIdent : Transform := ⟨TransformMode.TransformModeLinear, 0, 127, 0, 127, noNoise⟩

/-- The bounds of the rounding counterexample: Linear from [0,127] to
[0,100]. -/
def tCex : Transform := ⟨TransformMode.TransformModeLinear, 0, 127, 0, 100, noNoise⟩

/-- C3 (amended): the Linear transform computes transformed =
trunc(a*value + b) with a = (toMax-toMin)/(fromMax-fromMin) and
b = toMin - a*fromMin — the Go float64-to-uint16 conversion truncates
toward zero (floor on the nonnegative in-range inputs), not
round-to-nearest — still with no bounds checking of the result; the
0..127-to-0..127 identity boundary case continues to hold, because there
a*value + b is the integer value itself. -/
theorem linear_transform_truncates (t : Transform) (v : Nat)
    (h1 : t.fromMin < t.fromMax) (h2 : t.toMin ≤ t.toMax)
    (h3 : t.fromMax < 4294967296) (h4 : t.toMax < 4294967296)
    (h5 : t.toMax ≤ 65535) (h6 : t.fromMin ≤ v) (h7 : v ≤ t.fromMax) :
    ((linearApply t v : ℤ) =
      Int.floor (((t.toMax : ℚ) - t.toMin) / ((t.fromMax : ℚ) - t.fromMin) * (v : ℚ) +
        ((t.toMin : ℚ) - ((t.toMax : ℚ) - t.toMin) / ((t.fromMax : ℚ) - t.fromMin) * (t.fromMin : ℚ))))
    ∧ (∀ r : Rule, r.transform = t → t.mode = TransformMode.TransformModeLinear →
        transformValue r v = some (linearApply t v))
    ∧ (∀ w : Nat, w ≤ 127 → linearApply tIdent w = w) := by
  refine ⟨linearApply_eq_floor t v h1 h2 h3 h4 h5 h6 h7, ?_, ?_⟩
  · intro r hrt hmode
    simp [transformValue, hrt, hmode]
  · intro w hw
    have h := linearApply_eq_floor tIdent w (by decide) (by decide) (by decide) (by decide)
      (by decide) (Nat.zero_le w) (by simpa [tIdent] using hw)
    have heq : (((tIdent.toMax : ℚ) - tIdent.toMin) / ((tIdent.fromMax : ℚ) - tIdent.fromMin) * (w : ℚ) +
        ((tIdent.toMin : ℚ) - ((tIdent.toMax : ℚ) - tIdent.toMin) / ((tIdent.fromMax : ℚ) - tIdent.fromMin) * (tIdent.fromMin : ℚ))) = (w : ℚ) := by
      norm_num [tIdent]
    rw [heq, Int.floor_natCast] at h
    exact_mod_cast h

/-- C3 as stated is false: at bounds (0,127) to (0,100) and matched value 1
the code computes uint16(a*1 + b) = uint16(100/127) = 0 by truncation,
while round(a*1 + b) = round(100/127) = 1 as the claim states; the two
disagree. -/
theorem linear_rounding_cex :
    linearApply tCex 1 = 0
    ∧ linearSpecRound 0 127 0 100 1 = 1
    ∧ (linearApply tCex 1 : ℤ) ≠ linearSpecRound 0 127 0 100 1 := by
  have h := linearApply_eq_floor tCex 1 (by decide) (by decide) (by decide) (by decide)
    (by decide) (by decide) (by decide)
  have h0 : (linearApply tCex 1 : ℤ) = 0 := by
    rw [h]
    norm_num [tCex, Int.floor_eq_iff]
  have h1 : linearSpecRound 0 127 0 100 1 = 1 := by
    unfold linearSpecRound
    rw [round_eq]
    norm_num [Int.floor_eq_iff]
  refine ⟨by exact_mod_cast h0, h1, ?_⟩
  rw [h0, h1]
  decide

/-- Witness for C3 (amended) at bounds (0,127) to (0,100) and value 64, and
the identity instance at value 99. -/
theorem linear_transform_truncates_witness :
    ((linearApply tCex 64 : ℤ) =
      Int.floor (((tCex.toMax : ℚ) - tCex.toMin) / ((tCex.fromMax : ℚ) - tCex.fromMin) * ((64 : Nat) : ℚ) +
        ((tCex.toMin : ℚ) - ((tCex.toMax : ℚ) - tCex.toMin) / ((tCex.fromMax : ℚ) - tCex.fromMin) * (tCex.fromMin : ℚ))))
    ∧ linearApply tIdent 99 = 99 :=
  ⟨(linear_transform_truncates tCex 64 (by decide) (by decide) (by decide) (by decide)
      (by decide) (by decide) (by decide)).1,
   (linear_transform_truncates tCex 64 (by decide) (by decide) (by decide) (by decide)
      (by decide) (by decide) (by decide)).2.2 99 (by decide)⟩

/-- A concrete rule with transform mode None, dropDuplicates enabled with a
50 ms timeout, a filter matching every packet and extracting its third
byte, and a Control Change generator. -/
def dupRule : Rule :=
  { transform := ⟨TransformMode.TransformModeNone, 0, 0, 0, 0, noNoise⟩
    dropDuplicates := true
    dropDuplicatesTimeout := 50000000
    quickMatch := fun _ _ => true
    filterMatch := fun p => (FilterMatchResult.Match, p.data.getD 2 0)
    generate := fun p v => Except.ok ⟨[0xB0, 7, v % 256], p.timeStamp⟩ }

/-- Witness for C7: with lastValue = 100 equal to the transformed value and
10 ns elapsed (inside the 50 ms timeout), Match short-circuits to
MatchNoInject with the state unchanged, for an arbitrary replacement
generator; from the fresh state the same packet injects. -/
theorem dedup_drop_semantics_witness :
    Match { dupRule with generate := fun p _ => Except.ok p } ⟨100, 0, 17, 16, 0⟩ packet90 10 0 0 =
      (⟨RuleMatchResult.MatchNoInject, packet90, none, 0⟩, ⟨100, 0, 17, 16, 0⟩)
    ∧ (Match dupRule newRuleState packet90 10 0 0).1.Result = RuleMatchResult.MatchInject :=
  ⟨(dedup_drop_semantics dupRule ⟨100, 0, 17, 16, 0⟩ packet90 10 0 0 100 100 rfl rfl rfl).1
      rfl rfl (by decide) _,
   (dedup_drop_semantics dupRule newRuleState packet90 10 0 0 100 100 rfl rfl rfl).2.2
      rfl (by decide)⟩

/-- A concrete LinearDrop rule with bounds (0,100) to (0,100). -/
def ldRule : Rule :=
  { transform := ⟨TransformMode.TransformModeLinearDrop, 0, 100, 0, 100, noNoise⟩
    dropDuplicates := false
    dropDuplicatesTimeout := 0
    quickMatch := fun _ _ => true
    filterMatch := fun p => (FilterMatchResult.Match, p.data.getD 2 0)
    generate := fun p v => Except.ok ⟨[0xB0, 7, v % 256], p.timeStamp⟩ }

/-- A concrete Control Change packet carrying the out-of-range value 101. -/
def packet101 : Packet := ⟨[0xB0, 7, 101], 0⟩

/-- Witness for C8: with fromMin = 0 and fromMax = 100, the input value 101
yields NoMatch and no generated message. -/
theorem lineardrop_range_enforcement_witness :
    Match ldRule newRuleState packet101 0 0 0 =
      (⟨RuleMatchResult.NoMatch, packet101, none, 0⟩, newRuleState) :=
  (lineardrop_range_enforcement ldRule newRuleState packet101 0 0 0 101 rfl rfl).1 (by decide)

/-- A concrete rule whose generator always fails. -/
def failGenRule : Rule :=
  { transform := ⟨TransformMode.TransformModeNone, 0, 0, 0, 0, noNoise⟩
    dropDuplicates := false
    dropDuplicatesTimeout := 0
    quickMatch := fun _ _ => true
    filterMatch := fun p => (FilterMatchResult.Match, p.data.getD 2 0)
    generate := fun _ _ => Except.error "generate failed" }

/-- Witness for C9: a failing generator degrades to MatchInject with the
original packet as main packet. -/
theorem generator_failure_is_passthrough_witness :
    (Match failGenRule newRuleState packet90 0 0 0).1.Result = RuleMatchResult.MatchInject
    ∧ (Match failGenRule newRuleState packet90 0 0 0).1.MainPacket = packet90 :=
  generator_failure_is_passthrough failGenRule newRuleState packet90 0 0 0 100 100
    "generate failed" rfl rfl rfl (by decide) rfl

/-- A concrete Noise-mode rule whose generator always fails. -/
def noiseFailRule : Rule :=
  { transform := ⟨TransformMode.TransformModeNoise, 0, 127, 0, 127, ⟨11, 0, 10, 20, 5, 5⟩⟩
    dropDuplicates := false
    dropDuplicatesTimeout := 0
    quickMatch := fun _ _ => true
    filterMatch := fun p => (FilterMatchResult.Match, p.data.getD 2 0)
    generate := fun _ _ => Except.error "generate failed" }

/-- Witness for C10: the Noise rule with a failing generator returns no
noise packet; and a closed limiter window (now = 50, last = 0, limit = 100)
makes the dispatch schedule nothing and send nothing even for an injecting
rule. -/
theorem noise_only_on_success_witness :
    (Match noiseFailRule newRuleState packet90 0 0 0).1.NoisePacket = none
    ∧ (dispatchRules [alwaysInjectRule] packet90 0 100 50).scheduledNoise = []
    ∧ (dispatchRules [alwaysInjectRule] packet90 0 100 50).sends = [] :=
  ⟨noise_only_on_success.1 noiseFailRule newRuleState packet90 0 0 0 100
     (linearApply noiseFailRule.transform 100) "generate failed" rfl rfl rfl rfl,
   (noise_only_on_success.2 [alwaysInjectRule] packet90 0 100 50 (by decide)).1,
   (noise_only_on_success.2 [alwaysInjectRule] packet90 0 100 50 (by decide)).2⟩

end MIDIRouter
